import Mathlib

set_option maxRecDepth 100000

/-!
Verification development for src/import_cards.py: a Scryfall bulk-data ETL
script (freshness check + download + per-record transform + batched UPSERT
into a `cards` table keyed by the Scryfall card id).

Python runtime values are embedded as the mutual inductive `PyVal` /
`Fields` / `Elems` (a JSON-like universe extended with `decimal.Decimal`
values, `datetime.date` values and the `psycopg2.extras.Json` wrapper).
Machine-level float semantics are abstracted: a Python float is carried as
the exact rational it denotes, and `float(Decimal(q))` is modelled as the
float carrying the same rational; what the code under verification does is
change the runtime type, which the model tracks through the constructor.
Exceptions raised by the transformer are modelled with `Except PyErr`.
-/

mutual

/-- A Python runtime value as used by import_cards.py: JSON scalars,
dicts and lists, plus `decimal.Decimal` (produced by ijson for JSON
numbers with a fractional part), `datetime.date` (produced by
`parse_date`) and the `psycopg2.extras.Json` wrapper. -/
inductive PyVal where
  | none
  | bool (b : Bool)
  | int (n : Int)
  | float (q : ℚ)
  | decimal (q : ℚ)
  | str (s : String)
  | dict (fields : Fields)
  | list (items : Elems)
  | date (y : Nat) (m : Nat) (d : Nat)
  | json (v : PyVal)
deriving DecidableEq

/-- The entries of a Python dict with string keys, in insertion order. -/
inductive Fields where
  | nil
  | cons (k : String) (v : PyVal) (rest : Fields)
deriving DecidableEq

/-- The elements of a Python list, in order. -/
inductive Elems where
  | nil
  | cons (v : PyVal) (rest : Elems)
deriving DecidableEq

end

/-- An exception escaping the transformer (the only kind the script can
raise there is TypeError; ValueError from date parsing is caught). -/
inductive PyErr where
  | typeError
deriving DecidableEq

/-- First value stored under key `k`, i.e. Python `d[k]` when the key is
present (dict keys are unique, so first = only). -/
def Fields.lookup : Fields → String → Option PyVal
  | .nil, _ => Option.none
  | .cons k2 v rest, k => if k2 = k then some v else rest.lookup k

/-- Python `k in d`. -/
def Fields.containsKey (fs : Fields) (k : String) : Bool :=
  (fs.lookup k).isSome

/-- Python `d.get(k)`: the stored value, or `None` when the key is absent. -/
def pyGet (fs : Fields) (k : String) : PyVal :=
  (fs.lookup k).getD PyVal.none

/-- Python `d[k] = v`: replace the value in place when the key is present
(insertion order is kept), append the pair otherwise. -/
def Fields.set : Fields → String → PyVal → Fields
  | .nil, k, v => .cons k v .nil
  | .cons k2 v2 rest, k, v =>
      if k2 = k then .cons k2 v rest else .cons k2 v2 (rest.set k v)

def Elems.ofList : List PyVal → Elems
  | [] => .nil
  | v :: rest => .cons v (Elems.ofList rest)

def Elems.toList : Elems → List PyVal
  | .nil => []
  | .cons v rest => v :: rest.toList

/-- Python truthiness (`bool(v)` is False): `None`, `False`, zero numbers,
and empty strings/dicts/lists are falsy; date objects and Json wrappers
are always truthy. -/
def isFalsy : PyVal → Bool
  | .none => true
  | .bool b => !b
  | .int n => n == 0
  | .float q => q == 0
  | .decimal q => q == 0
  | .str s => s.isEmpty
  | .dict fs => fs == .nil
  | .list xs => xs == .nil
  | .date _ _ _ => false
  | .json _ => false

/-- The fixed column list of import_cards.py (lines 48-117), matching the
init.sql table definition; `id` (index 1) is the primary key. -/
def columns : List String :=
  ["oracle_id", "id", "object", "multiverse_ids", "mtgo_id", "tcgplayer_id",
   "cardmarket_id", "name", "lang", "released_at", "uri", "scryfall_uri",
   "layout", "highres_image", "image_status", "image_uris", "mana_cost",
   "cmc", "type_line", "oracle_text", "power", "toughness", "colors",
   "color_identity", "keywords", "legalities", "games", "reserved",
   "game_changer", "foil", "nonfoil", "finishes", "oversized", "promo",
   "reprint", "variation", "set_id", "set", "set_name", "set_type",
   "set_uri", "set_search_uri", "scryfall_set_uri", "rulings_uri",
   "prints_search_uri", "collector_number", "digital", "rarity",
   "watermark", "flavor_text", "card_back_id", "artist", "artist_ids",
   "illustration_id", "border_color", "frame", "frame_effects",
   "security_stamp", "full_art", "textless", "booster", "story_spotlight",
   "edhrec_rank", "preview", "prices", "related_uris", "purchase_uris",
   "card_faces"]

/-- Line 242: every column except the primary key `id`. -/
def update_columns : List String := columns.filter (fun col => col ≠ "id")

/-- Line 243: the SET clause of the upsert statement. -/
def set_clause : String :=
  String.intercalate ", " (update_columns.map (fun col => col ++ " = EXCLUDED." ++ col))

/-- Lines 244-250: the row-comparison no-op guard of the upsert statement. -/
def where_clause : String :=
  " WHERE (" ++
  String.intercalate ", " (update_columns.map (fun col => "cards." ++ col)) ++
  ") IS DISTINCT FROM (" ++
  String.intercalate ", " (update_columns.map (fun col => "EXCLUDED." ++ col)) ++
  ")"

/-- Proleptic Gregorian leap year, as used by datetime.date. -/
def is_leap (y : Nat) : Bool :=
  y % 4 == 0 && (y % 100 != 0 || y % 400 == 0)

/-- Number of days in month `m` of year `y` (datetime.date validity). -/
def days_in_month (y m : Nat) : Nat :=
  if m == 2 then (if is_leap y then 29 else 28)
  else if m == 4 || m == 6 || m == 9 || m == 11 then 30
  else 31

/-- Model of CPython `datetime.fromisoformat(s).date()` on the date-only
strings the Scryfall feed carries in released_at: the string must be
exactly YYYY-MM-DD with a valid proleptic-Gregorian calendar date (year
1-9999); anything else raises ValueError, modelled as `Option.none`.
(CPython additionally accepts a time-of-day suffix after the date; the
released_at values this script parses are calendar dates, so that
extension is not modelled.) -/
def fromisoformat_date (s : String) : Option (Nat × Nat × Nat) :=
  match s.toList with
  | [y1, y2, y3, y4, c1, m1, m2, c2, d1, d2] =>
      if y1.isDigit ∧ y2.isDigit ∧ y3.isDigit ∧ y4.isDigit ∧
         c1 = Char.ofNat 45 ∧ m1.isDigit ∧ m2.isDigit ∧
         c2 = Char.ofNat 45 ∧ d1.isDigit ∧ d2.isDigit then
        let y := (y1.toNat - 48) * 1000 + (y2.toNat - 48) * 100 +
                 (y3.toNat - 48) * 10 + (y4.toNat - 48)
        let m := (m1.toNat - 48) * 10 + (m2.toNat - 48)
        let d := (d1.toNat - 48) * 10 + (d2.toNat - 48)
        if 1 ≤ y ∧ 1 ≤ m ∧ m ≤ 12 ∧ 1 ≤ d ∧ d ≤ days_in_month y m then
          some (y, m, d)
        else Option.none
      else Option.none
  | _ => Option.none

/-- Lines 119-126, `parse_date`: falsy input (absent field, None, empty
string) yields None; a string is parsed with fromisoformat, ValueError
degrading to None; a truthy non-string value makes fromisoformat raise
TypeError, which the `except ValueError` clause does not catch. -/
def parse_date (v : PyVal) : Except PyErr PyVal :=
  if isFalsy v then .ok .none
  else match v with
    | .str s =>
        match fromisoformat_date s with
        | some (y, m, d) => .ok (.date y m d)
        | Option.none => .ok .none
    | _ => .error .typeError

mutual

/-- Lines 128-147, `convert_decimals`: recursively replace every
`decimal.Decimal` in a dict/list structure by the corresponding float;
all other leaves (including Json wrappers, which never occur in raw card
data) are returned unchanged. -/
def convert_decimals : PyVal → PyVal
  | .decimal q => .float q
  | .dict fs => .dict (convert_decimals_fields fs)
  | .list xs => .list (convert_decimals_elems xs)
  | v => v

/-- The dict-comprehension branch of `convert_decimals`. -/
def convert_decimals_fields : Fields → Fields
  | .nil => .nil
  | .cons k v rest => .cons k (convert_decimals v) (convert_decimals_fields rest)

/-- The list-comprehension branch of `convert_decimals`. -/
def convert_decimals_elems : Elems → Elems
  | .nil => .nil
  | .cons v rest => .cons (convert_decimals v) (convert_decimals_elems rest)

end

/-- A JSONB value as stored in the database: the image of Python
`json.dumps` (run by psycopg2.extras.Json) followed by the server's
parse. Integer and non-integer numbers are distinguished, as they are in
JSON text and by Python's round trip (`int` literals versus `float`
literals). -/
inductive Jsonb where
  | null
  | bool (b : Bool)
  | int (n : Int)
  | num (q : ℚ)
  | str (s : String)
  | obj (fields : List (String × Jsonb))
  | arr (items : List Jsonb)

mutual

/-- Model of the JSON serialization applied to a structured column value
(psycopg2.extras.Json wraps `json.dumps`): scalars and containers map to
their JSON forms; a `decimal.Decimal`, a date object or a nested Json
wrapper makes the default encoder raise TypeError, modelled as
`Option.none`. -/
def json_dumps : PyVal → Option Jsonb
  | .none => some .null
  | .bool b => some (.bool b)
  | .int n => some (.int n)
  | .float q => some (.num q)
  | .decimal _ => Option.none
  | .str s => some (.str s)
  | .dict fs => (json_dumps_fields fs).map .obj
  | .list xs => (json_dumps_elems xs).map .arr
  | .date _ _ _ => Option.none
  | .json _ => Option.none

def json_dumps_fields : Fields → Option (List (String × Jsonb))
  | .nil => some []
  | .cons k v rest => do
      let j ← json_dumps v
      let tl ← json_dumps_fields rest
      some ((k, j) :: tl)

def json_dumps_elems : Elems → Option (List Jsonb)
  | .nil => some []
  | .cons v rest => do
      let j ← json_dumps v
      let tl ← json_dumps_elems rest
      some (j :: tl)

end

mutual

/-- Model of deserializing a stored JSONB blob back into Python values
(`json.loads`): null, booleans, strings and containers map back
directly; integer literals load as `int`, fractional ones as `float`. -/
def json_loads : Jsonb → PyVal
  | .null => .none
  | .bool b => .bool b
  | .int n => .int n
  | .num q => .float q
  | .str s => .str s
  | .obj fs => .dict (json_loads_fields fs)
  | .arr xs => .list (json_loads_elems xs)

def json_loads_fields : List (String × Jsonb) → Fields
  | [] => .nil
  | (k, j) :: rest => .cons k (json_loads j) (json_loads_fields rest)

def json_loads_elems : List Jsonb → Elems
  | [] => .nil
  | j :: rest => .cons (json_loads j) (json_loads_elems rest)

end

mutual

/-- A value built from JSON scalars, decimals, dicts and lists only — the
shape of every field value ijson yields from the bulk file (no date
objects or Json wrappers can occur in raw input). -/
def plainVal : PyVal → Bool
  | .none => true
  | .bool _ => true
  | .int _ => true
  | .float _ => true
  | .decimal _ => true
  | .str _ => true
  | .dict fs => plainFields fs
  | .list xs => plainElems xs
  | .date _ _ _ => false
  | .json _ => false

def plainFields : Fields → Bool
  | .nil => true
  | .cons _ v rest => plainVal v && plainFields rest

def plainElems : Elems → Bool
  | .nil => true
  | .cons v rest => plainVal v && plainElems rest

end

mutual

/-- No `decimal.Decimal` occurs anywhere in the value. -/
def noDecimal : PyVal → Bool
  | .decimal _ => false
  | .dict fs => noDecimalFields fs
  | .list xs => noDecimalElems xs
  | .json v => noDecimal v
  | _ => true

def noDecimalFields : Fields → Bool
  | .nil => true
  | .cons _ v rest => noDecimal v && noDecimalFields rest

def noDecimalElems : Elems → Bool
  | .nil => true
  | .cons v rest => noDecimal v && noDecimalElems rest

end

/-- Lines 160-163: the loop over `card["card_faces"]` collecting
`face["image_uris"]` from every face that has the key, in face order
(the value is appended whatever it is, even None or an empty map). A
non-dict face is modelled as TypeError; faces are dicts in the feed and
in every claim below. -/
def collect_face_images : Elems → Except PyErr (List PyVal)
  | .nil => .ok []
  | .cons f rest =>
      match f with
      | .dict fs => do
          let tl ← collect_face_images rest
          match fs.lookup "image_uris" with
          | some v => .ok (v :: tl)
          | Option.none => .ok tl
      | _ => .error .typeError

/-- The image-URI map a face provides: for a face that is a dict with an
image_uris key, its value; nothing otherwise (used to state what the
aggregation collects). -/
def face_image : PyVal → Option PyVal
  | .dict fs => fs.lookup "image_uris"
  | _ => Option.none

/-- Lines 159-165 of `process_card`: when the record has a card_faces key
and its top-level image_uris value is falsy (absent, None, or an empty
container), aggregate the per-face image maps; the record is updated
only when the aggregate is non-empty. A card_faces value that is not a
list is modelled as TypeError (CPython would iterate a string or a dict
and otherwise raise; no claim concerns such records). -/
def aggregate_faces (card : Fields) : Except PyErr Fields :=
  if card.containsKey "card_faces" && isFalsy (pyGet card "image_uris") then
    match card.lookup "card_faces" with
    | some (.list faces) => do
        let aggregated ← collect_face_images faces
        if aggregated = [] then .ok card
        else .ok (card.set "image_uris" (.list (Elems.ofList aggregated)))
    | some _ => .error .typeError
    | Option.none => .ok card
  else .ok card

/-- Lines 168-178, the body of the per-column loop of `process_card`:
released_at goes through `parse_date`; a Decimal value is downcast to
float; a dict or list value is recursively decimal-converted and wrapped
for JSONB storage; anything else (including None for a missing field)
passes through unchanged. -/
def process_val (card : Fields) (col : String) : Except PyErr PyVal :=
  let val := pyGet card col
  if col = "released_at" then parse_date val
  else
    match val with
    | .decimal q => .ok (.float q)
    | .dict fs => .ok (.json (convert_decimals (.dict fs)))
    | .list xs => .ok (.json (convert_decimals (.list xs)))
    | v => .ok v

/-- The `processed` dict built by the loop of lines 167-178: one entry per
column, in column order. -/
def process_columns : List String → Fields → Except PyErr Fields
  | [], _ => .ok .nil
  | col :: rest, card => do
      let v ← process_val card col
      let tl ← process_columns rest card
      .ok (.cons col v tl)

/-- Lines 149-179, `process_card`: face-image aggregation (mutating the
card) followed by the per-column transformation. -/
def process_card (card : Fields) : Except PyErr Fields := do
  let card2 ← aggregate_faces card
  process_columns columns card2

/-- Line 233-234 of `main`: the row tuple
`tuple(processed.get(col) for col in columns)` for one card. -/
def card_row (card : Fields) : Except PyErr (List PyVal) := do
  let processed ← process_card card
  .ok (columns.map (fun col => pyGet processed col))

/-- Lines 227-238 of `main`: the full transformed batch, one row tuple per
input card, in input order; the first uncaught exception aborts the run. -/
def pipeline_rows : List Fields → Except PyErr (List (List PyVal))
  | [] => .ok []
  | card :: rest => do
      let row ← card_row card
      let tl ← pipeline_rows rest
      .ok (row :: tl)

/-- A transformed row tuple, in the fixed column order. -/
abbrev Row : Type := List PyVal

/-- The primary-key position: `id` is columns[1] (the ON CONFLICT target
of line 254). -/
def idIndex : Nat := 1

/-- The primary-key value of a row. -/
def rowKey (r : Row) : PyVal := r.getD idIndex PyVal.none

/-- The non-key column values of a row, in column order (the tuples
compared by the IS DISTINCT FROM guard of lines 244-250). In SQL the
row-wise IS DISTINCT FROM comparison is null-safe, so plain equality of
value lists is its faithful model. -/
def nonKey (r : Row) : List PyVal := r.eraseIdx idIndex

/-- Relational semantics of the statement built in lines 252-255 for one
incoming row: INSERT .. ON CONFLICT (id) DO UPDATE SET `set_clause`
WHERE `where_clause`. No key collision inserts the row; on a collision
the stored row is updated to the incoming values only when its non-key
tuple IS DISTINCT FROM the incoming one, otherwise nothing changes.
Returns the new table and the number of rows changed (inserted or
updated). -/
def upsert_row (t : List Row) (r : Row) : List Row × Nat :=
  match t.find? (fun s => decide (rowKey s = rowKey r)) with
  | Option.none => (t ++ [r], 1)
  | some s =>
      if nonKey s = nonKey r then (t, 0)
      else (t.map (fun s2 => if rowKey s2 = rowKey r then r else s2), 1)

/-- Semantics of executing the upsert statement over the whole batch
(execute_values, lines 256-258): rows are applied in order; the total
number of changed rows is accumulated. -/
def apply_batch (t : List Row) : List Row → List Row × Nat
  | [] => (t, 0)
  | r :: rest =>
      let step := upsert_row t r
      let tl := apply_batch step.1 rest
      (tl.1, step.2 + tl.2)

/-- The local bulk-file artifact: its length in bytes and its access and
modification timestamps, as rational epoch seconds. -/
structure LocalFile where
  len : Nat
  atime : ℚ
  mtime : ℚ
deriving DecidableEq

/-- One entry of the Scryfall bulk-data API response (lines 192-199).
The updated_at field carries the already-parsed server timestamp as a
rational epoch instant; the ISO-8601 text form and its
`fromisoformat` parse (line 197-199) are not separately modelled, no
claim being about timestamp syntax. -/
structure BulkEntry where
  type_ : String
  updated_at : ℚ
  download_uri : String

/-- Observable effects of `download_latest_json`, in order. The
`http_get_body` event records that `requests.get` (line 212, no
streaming flag) materializes the entire response body in memory
(`r.content`); `file_write` records one `f.write` call and its size;
`set_mtime` records the `os.utime` call of line 219. -/
inductive DlEvent where
  | http_get_meta (status : Nat)
  | http_get_body (status : Nat) (body_len : Nat)
  | file_write (len : Nat)
  | set_mtime (atime : ℚ) (mtime : ℚ)
deriving DecidableEq

/-- Line 25: the configured bulk data type. -/
def BULK_DATA_TYPE : String := "oracle_cards"

/-- The freshness decision of lines 204-210: download when the local file
is absent, or when its modification time (a timezone-aware instant) is
not `>=` the server timestamp, i.e. is strictly earlier. -/
def needs_download (localFile : Option LocalFile) (server_updated_at : ℚ) : Bool :=
  match localFile with
  | Option.none => true
  | some f => decide (f.mtime < server_updated_at)

/-- Lines 181-220, `download_latest_json`, as a function of the run's
inputs: the metadata response status and entries, the download response
status and body length, and the current local file (none when absent).
Returns the resulting local file state (unchanged on skip) or the
RuntimeError message, together with the trace of observable effects. -/
def download_latest_json (meta_status : Nat) (bulk : List BulkEntry)
    (dl_status : Nat) (dl_len : Nat) (localFile : Option LocalFile) :
    Except String (Option LocalFile) × List DlEvent :=
  let ev0 := [DlEvent.http_get_meta meta_status]
  if meta_status ≠ 200 then (.error "Failed to query bulk-data API", ev0)
  else
    match bulk.find? (fun e => e.type_ == BULK_DATA_TYPE) with
    | Option.none => (.error "bulk data not found", ev0)
    | some desired =>
        if needs_download localFile desired.updated_at then
          let ev1 := ev0 ++ [DlEvent.http_get_body dl_status dl_len]
          if dl_status ≠ 200 then (.error "Failed to download", ev1)
          else
            (.ok (some ⟨dl_len, desired.updated_at, desired.updated_at⟩),
             ev1 ++ [DlEvent.file_write dl_len,
                     DlEvent.set_mtime desired.updated_at desired.updated_at])
        else (.ok localFile, ev0)

/-- Largest number of payload bytes simultaneously held in client memory
during the traced run: every `http_get_body` event holds the whole body. -/
def peak_buffered (evs : List DlEvent) : Nat :=
  (evs.map (fun e =>
    match e with
    | DlEvent.http_get_body _ n => n
    | _ => 0)).foldr max 0

/-- The page decomposition execute_values performs with page_size 1000
(line 257): the batch is sent in successive pages of at most 1000 rows. -/
def pages : List Row → List (List Row)
  | [] => []
  | r :: rest => List.take 1000 (r :: rest) :: pages (List.drop 1000 (r :: rest))
termination_by rs => rs.length
decreasing_by
  simp only [List.length_drop, List.length_cons]
  omega

/-- Everything that can abort a run of `main`, by pipeline stage. -/
inductive RunFailure where
  | metaHttp (status : Nat)
  | bulkMissing
  | downloadHttp (status : Nat)
  | malformedDoc
  | record (e : PyErr)
  | writerPage (k : Nat)
deriving DecidableEq

/-- The inputs a run of `main` is exposed to: the HTTP world seen by
`download_latest_json`, the ijson parse outcome for the local file
(error for a malformed top-level document), and the page index at which
the database rejects an execute_values page, if any. -/
structure World where
  meta_status : Nat
  bulk : List BulkEntry
  dl_status : Nat
  dl_len : Nat
  localFile : Option LocalFile
  parsed : Except Unit (List Fields)
  writer_fail : Option Nat

/-- The destination-visible outcome of a run: whether it succeeded, the
committed contents of the cards table, the contents visible inside the
run's open transaction, and how many commits were issued. -/
structure RunResult where
  outcome : Except RunFailure Unit
  committed : List Row
  pending : List Row
  ncommits : Nat

/-- Lines 222-262, `main`, over the transaction semantics of the single
psycopg2 connection (autocommit off: every execute_values page joins one
transaction, made durable only by the conn.commit() of line 259; an
uncommitted transaction leaves the table as it was). Failures in
download_latest_json, in the ijson/process loop, or in an
execute_values page abort the run before the commit point; otherwise
all pages are sent and committed exactly once. -/
def run_main (w : World) (db0 : List Row) : RunResult :=
  match (download_latest_json w.meta_status w.bulk w.dl_status w.dl_len w.localFile).1 with
  | .error _ =>
      if w.meta_status ≠ 200 then ⟨.error (.metaHttp w.meta_status), db0, db0, 0⟩
      else if (w.bulk.find? (fun e => e.type_ == BULK_DATA_TYPE)).isNone then
        ⟨.error .bulkMissing, db0, db0, 0⟩
      else ⟨.error (.downloadHttp w.dl_status), db0, db0, 0⟩
  | .ok _ =>
      match w.parsed with
      | .error _ => ⟨.error .malformedDoc, db0, db0, 0⟩
      | .ok cards =>
          match pipeline_rows cards with
          | .error e => ⟨.error (.record e), db0, db0, 0⟩
          | .ok rows =>
              match w.writer_fail with
              | some k =>
                  if k < (pages rows).length then
                    ⟨.error (.writerPage k), db0,
                     (apply_batch db0 (((pages rows).take k).flatten)).1, 0⟩
                  else
                    ⟨.ok (), (apply_batch db0 rows).1, (apply_batch db0 rows).1, 1⟩
              | Option.none =>
                  ⟨.ok (), (apply_batch db0 rows).1, (apply_batch db0 rows).1, 1⟩

/-- Key search the upsert statement performs: first stored row whose
primary-key value equals `k`. -/
def findKey (t : List Row) (k : PyVal) : Option Row :=
  t.find? (fun s => decide (rowKey s = k))

/-- A two-faced card: each face has an image-URI map, and there is no
top-level image_uris key. -/
def exFaces : Elems :=
  .cons (.dict (.cons "image_uris" (.dict (.cons "normal" (.str "https://img/a1.jpg") .nil)) .nil))
    (.cons (.dict (.cons "image_uris" (.dict (.cons "normal" (.str "https://img/a2.jpg") .nil)) .nil)) .nil)

/-- The per-face image maps of `exFaces`, in face order. -/
def exAgg : List PyVal :=
  [.dict (.cons "normal" (.str "https://img/a1.jpg") .nil),
   .dict (.cons "normal" (.str "https://img/a2.jpg") .nil)]

/-- A multi-faced input record lacking a top-level image_uris key. -/
def exCard : Fields :=
  .cons "id" (.str "abc-1") (.cons "name" (.str "Delver // Insect")
    (.cons "card_faces" (.list exFaces) .nil))

/-- The same record but with a present, empty top-level image_uris map. -/
def exCardEmptyImg : Fields :=
  .cons "id" (.str "abc-1") (.cons "image_uris" (.dict .nil)
    (.cons "card_faces" (.list exFaces) .nil))

/-- The same record but with a non-empty top-level image_uris map. -/
def exCardImgPresent : Fields :=
  .cons "id" (.str "abc-1") (.cons "image_uris" (.dict (.cons "small" (.str "https://img/s.jpg") .nil))
    (.cons "card_faces" (.list exFaces) .nil))

/-- An input record whose released_at text is not a date. -/
def exBadDateCard : Fields :=
  .cons "id" (.str "abc-2") (.cons "name" (.str "Some Card")
    (.cons "released_at" (.str "not-a-date") .nil))

/-- An ordinary single-faced input record. -/
def exPlainCard : Fields :=
  .cons "id" (.str "abc-3") (.cons "name" (.str "Plain Card")
    (.cons "released_at" (.str "2015-07-17")
      (.cons "prices" (.dict (.cons "usd" (.decimal (3/2)) .nil)) .nil)))

/-- A nested structure holding high-precision decimals at several depths. -/
def exNested : PyVal :=
  .dict (.cons "prices" (.dict (.cons "usd" (.decimal (149/100))
      (.cons "eur" (.decimal (2/1)) .nil)))
    (.cons "tiers" (.list (.cons (.list (.cons (.decimal (7/4)) .nil)) .nil)) .nil))

/-- A bulk metadata response carrying only the oracle_cards entry. -/
def exBulk : List BulkEntry := [⟨"oracle_cards", 1700000000, "https://data/oracle.json"⟩]

/-- A world in which the metadata query fails with HTTP 500. -/
def wFail : World :=
  ⟨500, exBulk, 200, 10, Option.none, .ok [exPlainCard], Option.none⟩

/-- A world in which the whole run succeeds on a first import. -/
def wOk : World :=
  ⟨200, exBulk, 200, 10, Option.none, .ok [exPlainCard], Option.none⟩

/-- C2. The freshness decision downloads exactly when the local file is
absent or strictly older than the server timestamp, skips on an equal or
later local time, and a missing local file is not an error: with
successful HTTP statuses, download_latest_json returns ok. -/
theorem C2_freshness_decision :
    (∀ s : ℚ, needs_download Option.none s = true) ∧
    (∀ (f : LocalFile) (s : ℚ),
        (needs_download (some f) s = true ↔ f.mtime < s) ∧
        (needs_download (some f) s = false ↔ s ≤ f.mtime)) ∧
    (∀ (bulk : List BulkEntry) (e : BulkEntry) (n : Nat),
        bulk.find? (fun b => b.type_ == BULK_DATA_TYPE) = some e →
        ∃ lf, (download_latest_json 200 bulk 200 n Option.none).1 = .ok (some lf)) := by
  refine ⟨fun s => rfl, fun f s => ⟨?_, ?_⟩, fun bulk e n hfind => ?_⟩
  · simp [needs_download]
  · simp [needs_download]
  · simp only [download_latest_json, hfind, needs_download]
    simp

/-- C2 witness: at a concrete remote timestamp and metadata list. -/
theorem C2_freshness_decision_witness :
    needs_download Option.none 5 = true ∧
    (needs_download (some ⟨10, 4, 4⟩) 5 = true ↔ (4 : ℚ) < 5) ∧
    (needs_download (some ⟨10, 5, 5⟩) 5 = false ↔ (5 : ℚ) ≤ 5) ∧
    ∃ lf, (download_latest_json 200 exBulk 200 9 Option.none).1 = .ok (some lf) := by
  refine ⟨C2_freshness_decision.1 5,
    (C2_freshness_decision.2.1 ⟨10, 4, 4⟩ 5).1,
    (C2_freshness_decision.2.1 ⟨10, 5, 5⟩ 5).2,
    C2_freshness_decision.2.2 exBulk ⟨"oracle_cards", 1700000000, "https://data/oracle.json"⟩ 9 rfl⟩

/-- C7. After a successful download both file times are set to exactly the
server's updated_at, and the next run's freshness decision is a function
of server-declared timestamps alone. -/
theorem C7_timestamp_stamping :
    ∀ (bulk : List BulkEntry) (e : BulkEntry) (n : Nat) (localFile : Option LocalFile),
      bulk.find? (fun b => b.type_ == BULK_DATA_TYPE) = some e →
      needs_download localFile e.updated_at = true →
      ∃ lf, (download_latest_json 200 bulk 200 n localFile).1 = .ok (some lf) ∧
        lf.mtime = e.updated_at ∧ lf.atime = e.updated_at ∧
        (∀ s2 : ℚ, needs_download (some lf) s2 = decide (e.updated_at < s2)) := by
  intro bulk e n localFile hfind hneed
  refine ⟨⟨n, e.updated_at, e.updated_at⟩, ?_, rfl, rfl, fun s2 => rfl⟩
  simp only [download_latest_json, hfind, hneed]
  simp

/-- C7 witness: a concrete first-run download stamps mtime 1700000000. -/
theorem C7_timestamp_stamping_witness :
    ∃ lf, (download_latest_json 200 exBulk 200 9 Option.none).1 = .ok (some lf) ∧
      lf.mtime = 1700000000 ∧ lf.atime = 1700000000 ∧
      (∀ s2 : ℚ, needs_download (some lf) s2 = decide ((1700000000 : ℚ) < s2)) :=
  C7_timestamp_stamping exBulk ⟨"oracle_cards", 1700000000, "https://data/oracle.json"⟩ 9
    Option.none rfl rfl

/-- On the download path (entry found, fresh download needed, both HTTP
calls succeed) the event trace is: metadata GET, one whole-body GET, one
write of the whole body, one utime call. -/
theorem download_events_eq (bulk : List BulkEntry) (e : BulkEntry) (n : Nat)
    (localFile : Option LocalFile)
    (hfind : bulk.find? (fun b => b.type_ == BULK_DATA_TYPE) = some e)
    (hneed : needs_download localFile e.updated_at = true) :
    (download_latest_json 200 bulk 200 n localFile).2 =
      [DlEvent.http_get_meta 200, DlEvent.http_get_body 200 n,
       DlEvent.file_write n, DlEvent.set_mtime e.updated_at e.updated_at] := by
  simp only [download_latest_json, hfind, hneed]
  simp

/-- C9 counterexample: there is no bound, independent of the payload, on
the number of payload bytes the downloader holds in memory — at body
length n it holds all n bytes, for every n. -/
theorem C9_counterexample :
    ¬ ∃ C : Nat, ∀ n : Nat,
        peak_buffered
          (download_latest_json 200 exBulk 200 n Option.none).2 ≤ C := by
  rintro ⟨C, h⟩
  have hev := download_events_eq exBulk
    ⟨"oracle_cards", 1700000000, "https://data/oracle.json"⟩ (C + 1) Option.none rfl rfl
  have hC := h (C + 1)
  rw [hev] at hC
  simp [peak_buffered] at hC

/-- C9 amended: the downloader does not stream; on every successful fetch
it materializes the entire response body in memory (a peak of the whole
payload size) and writes it to disk in a single write. -/
theorem C9_whole_body_buffered :
    ∀ (bulk : List BulkEntry) (e : BulkEntry) (n : Nat) (localFile : Option LocalFile),
      bulk.find? (fun b => b.type_ == BULK_DATA_TYPE) = some e →
      needs_download localFile e.updated_at = true →
      (download_latest_json 200 bulk 200 n localFile).2 =
        [DlEvent.http_get_meta 200, DlEvent.http_get_body 200 n,
         DlEvent.file_write n, DlEvent.set_mtime e.updated_at e.updated_at] ∧
      peak_buffered (download_latest_json 200 bulk 200 n localFile).2 = n := by
  intro bulk e n localFile hfind hneed
  have hev := download_events_eq bulk e n localFile hfind hneed
  refine ⟨hev, ?_⟩
  rw [hev]
  simp [peak_buffered]

/-- C9 amended witness: a 123456-byte payload is wholly buffered and
written in one write. -/
theorem C9_whole_body_buffered_witness :
    (download_latest_json 200 exBulk 200 123456 Option.none).2 =
      [DlEvent.http_get_meta 200, DlEvent.http_get_body 200 123456,
       DlEvent.file_write 123456, DlEvent.set_mtime 1700000000 1700000000] ∧
    peak_buffered (download_latest_json 200 exBulk 200 123456 Option.none).2 = 123456 :=
  C9_whole_body_buffered exBulk ⟨"oracle_cards", 1700000000, "https://data/oracle.json"⟩
    123456 Option.none rfl rfl

/-- Setting one key leaves every other key's lookup unchanged. -/
theorem Fields.lookup_set_ne : ∀ (fs : Fields) (k : String) (v : PyVal) (c : String),
    c ≠ k → (fs.set k v).lookup c = fs.lookup c
  | .nil, k, v, c, h => by
      simp only [Fields.set, Fields.lookup]
      rw [if_neg (fun hk => h hk.symm)]
  | .cons k2 v2 rest, k, v, c, h => by
      simp only [Fields.set]
      by_cases hk2 : k2 = k
      · subst hk2
        simp only [if_pos rfl, Fields.lookup]
        rw [if_neg (fun hk => h hk.symm), if_neg (fun hk => h hk.symm)]
      · simp only [if_neg hk2, Fields.lookup]
        by_cases hc : k2 = c
        · simp [hc]
        · simp [hc, Fields.lookup_set_ne rest k v c h]

/-- Looking up the key just set yields the new value. -/
theorem Fields.lookup_set_self : ∀ (fs : Fields) (k : String) (v : PyVal),
    (fs.set k v).lookup k = some v
  | .nil, k, v => by simp [Fields.set, Fields.lookup]
  | .cons k2 v2 rest, k, v => by
      simp only [Fields.set]
      by_cases hk2 : k2 = k
      · simp [hk2, Fields.lookup]
      · simp [if_neg hk2, Fields.lookup, hk2, Fields.lookup_set_self rest k v]

/-- Face-image aggregation touches only the image_uris key: every other
key of the record keeps its value. -/
theorem aggregate_faces_preserves (card card2 : Fields)
    (h : aggregate_faces card = .ok card2) (c : String) (hc : c ≠ "image_uris") :
    card2.lookup c = card.lookup c := by
  unfold aggregate_faces at h
  split at h
  · split at h
    · rename_i faces heq
      cases hcoll : collect_face_images faces with
      | error e => rw [hcoll] at h; exact absurd h (by simp [Bind.bind, Except.bind])
      | ok agg =>
          rw [hcoll] at h
          simp only [Bind.bind, Except.bind] at h
          split at h
          · cases h; rfl
          · cases h; exact Fields.lookup_set_ne card "image_uris" _ c hc
    · exact absurd h (by simp)
    · cases h; rfl
  · cases h; rfl

/-- In the processed dict, a column of the fixed list maps to exactly the
value process_val computed for it. -/
theorem process_columns_ok_lookup (card : Fields) (c : String) (v : PyVal)
    (hv : process_val card c = .ok v) :
    ∀ (cols : List String) (p : Fields),
      process_columns cols card = .ok p → c ∈ cols → p.lookup c = some v := by
  intro cols
  induction cols with
  | nil => intro p _ hc; cases hc
  | cons col rest ih =>
      intro p hp hc
      unfold process_columns at hp
      cases hcol : process_val card col with
      | error e =>
          rw [hcol] at hp
          exact absurd hp (by simp [Bind.bind, Except.bind])
      | ok v1 =>
          rw [hcol] at hp
          cases hrest : process_columns rest card with
          | error e =>
              rw [hrest] at hp
              exact absurd hp (by simp [Bind.bind, Except.bind])
          | ok tl =>
              rw [hrest] at hp
              simp only [Bind.bind, Except.bind] at hp
              cases hp
              simp only [Fields.lookup]
              by_cases hcc : col = c
              · subst hcc
                rw [hcol] at hv
                cases hv
                simp
              · rw [if_neg hcc]
                cases List.mem_cons.mp hc with
                | inl h2 => exact absurd h2.symm hcc
                | inr h2 => exact ih tl hrest h2

/-- A successful card_row run decomposes into a successful aggregation, a
successful column loop, and the tuple of processed values in fixed
column order. -/
theorem card_row_ok (card : Fields) (row : List PyVal)
    (h : card_row card = .ok row) :
    ∃ card2 p, aggregate_faces card = .ok card2 ∧
      process_columns columns card2 = .ok p ∧
      row = columns.map (fun col => pyGet p col) := by
  unfold card_row process_card at h
  cases hag : aggregate_faces card with
  | error e => rw [hag] at h; exact absurd h (by simp [Bind.bind, Except.bind])
  | ok card2 =>
      rw [hag] at h
      simp only [Bind.bind, Except.bind] at h
      cases hp : process_columns columns card2 with
      | error e => rw [hp] at h; exact absurd h (by simp)
      | ok p =>
          rw [hp] at h
          simp only [Except.ok.injEq] at h
          exact ⟨card2, p, rfl, hp, h.symm⟩

/-- C5. Absent or falsy released_at yields a null date; a string rejected
by the ISO parse yields a null date without raising; at row level the
released_at slot (column index 9) of such a record is null, and a record
with released_at "not-a-date" transforms successfully to a row with a
null release date. -/
theorem C5_malformed_date_degrades :
    (parse_date PyVal.none = .ok PyVal.none) ∧
    (∀ s : String, fromisoformat_date s = Option.none →
        parse_date (.str s) = .ok PyVal.none) ∧
    columns[9]? = some "released_at" ∧
    (∀ (card : Fields) (row : List PyVal), card_row card = .ok row →
        (Fields.lookup card "released_at" = Option.none ∨
         ∃ s, Fields.lookup card "released_at" = some (.str s) ∧
           fromisoformat_date s = Option.none) →
        row[9]? = some PyVal.none) ∧
    fromisoformat_date "not-a-date" = Option.none ∧
    (∃ row, card_row exBadDateCard = .ok row ∧ row[9]? = some PyVal.none) := by
  have hparse : ∀ s : String, fromisoformat_date s = Option.none →
      parse_date (.str s) = .ok PyVal.none := by
    intro s hs
    by_cases he : isFalsy (.str s) = true
    · simp [parse_date, he]
    · simp only [parse_date, he, if_neg]
      rw [if_neg (by simp [he]), hs]
  refine ⟨rfl, hparse, rfl, ?_, by decide, ⟨_, rfl, rfl⟩⟩
  intro card row hrow hmiss
  obtain ⟨card2, p, hag, hp, hmap⟩ := card_row_ok card row hrow
  have hpres := aggregate_faces_preserves card card2 hag "released_at" (by decide)
  have hval : process_val card2 "released_at" = .ok PyVal.none := by
    rcases hmiss with hmiss | ⟨s, hmiss, hbad⟩
    · simp [process_val, pyGet, hpres, hmiss, parse_date, isFalsy]
    · simp only [process_val, if_pos rfl, pyGet, hpres, hmiss, Option.getD_some]
      exact hparse s hbad
  have hlook := process_columns_ok_lookup card2 "released_at" PyVal.none hval
    columns p hp (by decide)
  subst hmap
  rw [List.getElem?_map]
  have h9 : columns[9]? = some "released_at" := rfl
  rw [h9]
  simp [pyGet, hlook]

/-- C5 witness: at the concrete record exBadDateCard, applying the record
level statement and the string-level statement. -/
theorem C5_malformed_date_degrades_witness :
    parse_date (PyVal.str "not-a-date") = .ok PyVal.none ∧
    (∃ row, card_row exBadDateCard = .ok row ∧ row[9]? = some PyVal.none) :=
  ⟨C5_malformed_date_degrades.2.1 "not-a-date" (by decide),
   ⟨_, rfl, C5_malformed_date_degrades.2.2.2.1 exBadDateCard _ rfl
      (Or.inr ⟨"not-a-date", rfl, by decide⟩)⟩⟩

/-- Collecting face images over a list of dict faces succeeds and yields
exactly the image_uris values of the faces that have the key, in order. -/
theorem collect_face_images_dicts :
    ∀ (fl : List PyVal), (∀ f ∈ fl, ∃ fs, f = PyVal.dict fs) →
      collect_face_images (Elems.ofList fl) = .ok (fl.filterMap face_image) := by
  intro fl
  induction fl with
  | nil => intro _; rfl
  | cons f tl ih =>
      intro hd
      obtain ⟨fs, rfl⟩ := hd f (List.mem_cons_self f tl)
      have htl := ih (fun g hg => hd g (List.mem_cons_of_mem _ hg))
      simp only [Elems.ofList, collect_face_images, htl, Bind.bind, Except.bind]
      cases hlk : fs.lookup "image_uris" with
      | none => simp [List.filterMap_cons, face_image, hlk]
      | some u => simp [List.filterMap_cons, face_image, hlk]

/-- When the record has a card_faces list of dict faces and its image_uris
value is falsy, the aggregation branch runs: an empty collection leaves
the record unchanged, a non-empty one is written into image_uris. -/
theorem aggregate_faces_fires (card : Fields) (fl : List PyVal)
    (himg : isFalsy (pyGet card "image_uris") = true)
    (hfaces : Fields.lookup card "card_faces" = some (.list (Elems.ofList fl)))
    (hdicts : ∀ f ∈ fl, ∃ fs, f = PyVal.dict fs) :
    (fl.filterMap face_image = [] → aggregate_faces card = .ok card) ∧
    (fl.filterMap face_image ≠ [] →
      aggregate_faces card = .ok (card.set "image_uris"
        (.list (Elems.ofList (fl.filterMap face_image))))) := by
  have hcond : (card.containsKey "card_faces" && isFalsy (pyGet card "image_uris")) = true := by
    simp [Fields.containsKey, hfaces, himg]
  have hcoll := collect_face_images_dicts fl hdicts
  constructor
  · intro hnil
    simp [aggregate_faces, hcond, hfaces, hcoll, hnil, Bind.bind, Except.bind]
  · intro hne
    simp [aggregate_faces, hcond, hfaces, hcoll, hne, Bind.bind, Except.bind]

/-- C3. A record with a face list and no top-level image_uris key gets an
image_uris list collecting each face-provided map, in face order; if no
face provides one the record is unchanged; with exactly two faces each
providing a map, the result is the ordered two-element list. -/
theorem C3_multiface_aggregation :
    ∀ (card : Fields) (fl : List PyVal),
      Fields.lookup card "image_uris" = Option.none →
      Fields.lookup card "card_faces" = some (.list (Elems.ofList fl)) →
      (∀ f ∈ fl, ∃ fs, f = PyVal.dict fs) →
      (fl.filterMap face_image = [] → aggregate_faces card = .ok card) ∧
      (fl.filterMap face_image ≠ [] →
        aggregate_faces card = .ok (card.set "image_uris"
          (.list (Elems.ofList (fl.filterMap face_image))))) ∧
      (∀ (fs1 fs2 : Fields) (u1 u2 : PyVal),
          fl = [PyVal.dict fs1, PyVal.dict fs2] →
          fs1.lookup "image_uris" = some u1 →
          fs2.lookup "image_uris" = some u2 →
          aggregate_faces card = .ok (card.set "image_uris"
            (.list (.cons u1 (.cons u2 .nil))))) := by
  intro card fl himg hfaces hdicts
  have hfalsy : isFalsy (pyGet card "image_uris") = true := by
    simp [pyGet, himg, isFalsy]
  have hfire := aggregate_faces_fires card fl hfalsy hfaces hdicts
  refine ⟨hfire.1, hfire.2, ?_⟩
  intro fs1 fs2 u1 u2 hfl h1 h2
  subst hfl
  have hmap : ([PyVal.dict fs1, PyVal.dict fs2].filterMap face_image) = [u1, u2] := by
    simp [List.filterMap_cons, face_image, h1, h2]
  have := hfire.2 (by rw [hmap]; simp)
  rw [hmap] at this
  exact this

/-- C3 witness: the two-faced record exCard aggregates its two per-face
image maps, in face order. -/
theorem C3_multiface_aggregation_witness :
    aggregate_faces exCard = .ok (exCard.set "image_uris"
      (.list (.cons (.dict (.cons "normal" (.str "https://img/a1.jpg") .nil))
        (.cons (.dict (.cons "normal" (.str "https://img/a2.jpg") .nil)) .nil)))) :=
  (C3_multiface_aggregation exCard
    [PyVal.dict (.cons "image_uris" (.dict (.cons "normal" (.str "https://img/a1.jpg") .nil)) .nil),
     PyVal.dict (.cons "image_uris" (.dict (.cons "normal" (.str "https://img/a2.jpg") .nil)) .nil)]
    rfl rfl
    (by intro f hf
        simp only [List.mem_cons, List.not_mem_nil, or_false] at hf
        rcases hf with rfl | rfl
        · exact ⟨_, rfl⟩
        · exact ⟨_, rfl⟩)).2.2 _ _ _ _ rfl rfl rfl

/-- C10. The aggregation triggers on any falsy top-level image_uris value
(absent yields None, and None, an empty map and an empty list are all
falsy), so a present-but-empty map is overwritten by the aggregate; it
never triggers when the stored image_uris value is truthy, e.g. a
non-empty map. -/
theorem C10_falsy_image_trigger :
    (∀ (card : Fields) (fl : List PyVal),
        isFalsy (pyGet card "image_uris") = true →
        Fields.lookup card "card_faces" = some (.list (Elems.ofList fl)) →
        (∀ f ∈ fl, ∃ fs, f = PyVal.dict fs) →
        fl.filterMap face_image ≠ [] →
        aggregate_faces card = .ok (card.set "image_uris"
          (.list (Elems.ofList (fl.filterMap face_image))))) ∧
    (isFalsy PyVal.none = true ∧ isFalsy (.dict .nil) = true ∧
      isFalsy (.list .nil) = true ∧
      (∀ fs : Fields, fs ≠ .nil → isFalsy (.dict fs) = false)) ∧
    (∀ (card : Fields) (v : PyVal),
        Fields.lookup card "image_uris" = some v → isFalsy v = false →
        aggregate_faces card = .ok card) := by
  refine ⟨?_, ⟨rfl, rfl, rfl, ?_⟩, ?_⟩
  · intro card fl hfalsy hfaces hdicts hne
    exact (aggregate_faces_fires card fl hfalsy hfaces hdicts).2 hne
  · intro fs hfs
    cases fs with
    | nil => exact absurd rfl hfs
    | cons k v rest => rfl
  · intro card v hlk hv
    have hcond : (card.containsKey "card_faces" && isFalsy (pyGet card "image_uris")) = false := by
      simp [pyGet, hlk, hv]
    simp [aggregate_faces, hcond]

/-- C10 witness: the record with a present-but-empty image map is
overwritten with the aggregate; the record with a non-empty image map is
left unchanged. -/
theorem C10_falsy_image_trigger_witness :
    aggregate_faces exCardEmptyImg = .ok (exCardEmptyImg.set "image_uris"
      (.list (Elems.ofList exAgg))) ∧
    aggregate_faces exCardImgPresent = .ok exCardImgPresent :=
  ⟨C10_falsy_image_trigger.1 exCardEmptyImg
    [PyVal.dict (.cons "image_uris" (.dict (.cons "normal" (.str "https://img/a1.jpg") .nil)) .nil),
     PyVal.dict (.cons "image_uris" (.dict (.cons "normal" (.str "https://img/a2.jpg") .nil)) .nil)]
    rfl rfl
    (by intro f hf
        simp only [List.mem_cons, List.not_mem_nil, or_false] at hf
        rcases hf with rfl | rfl
        · exact ⟨_, rfl⟩
        · exact ⟨_, rfl⟩)
    (by decide),
   C10_falsy_image_trigger.2.2 exCardImgPresent
     (.dict (.cons "small" (.str "https://img/s.jpg") .nil)) rfl rfl⟩

mutual

/-- After convert_decimals, a plain value contains no Decimal anywhere. -/
theorem plain_convert_noDecimal : ∀ v : PyVal,
    plainVal v = true → noDecimal (convert_decimals v) = true
  | .none, _ => rfl
  | .bool _, _ => rfl
  | .int _, _ => rfl
  | .float _, _ => rfl
  | .decimal _, _ => rfl
  | .str _, _ => rfl
  | .dict fs, h => by
      simp only [convert_decimals, noDecimal]
      exact plain_convert_noDecimal_fields fs (by simpa [plainVal] using h)
  | .list xs, h => by
      simp only [convert_decimals, noDecimal]
      exact plain_convert_noDecimal_elems xs (by simpa [plainVal] using h)

theorem plain_convert_noDecimal_fields : ∀ fs : Fields,
    plainFields fs = true → noDecimalFields (convert_decimals_fields fs) = true
  | .nil, _ => rfl
  | .cons k v rest, h => by
      simp only [plainFields, Bool.and_eq_true] at h
      simp only [convert_decimals_fields, noDecimalFields, Bool.and_eq_true]
      exact ⟨plain_convert_noDecimal v h.1, plain_convert_noDecimal_fields rest h.2⟩

theorem plain_convert_noDecimal_elems : ∀ xs : Elems,
    plainElems xs = true → noDecimalElems (convert_decimals_elems xs) = true
  | .nil, _ => rfl
  | .cons v rest, h => by
      simp only [plainElems, Bool.and_eq_true] at h
      simp only [convert_decimals_elems, noDecimalElems, Bool.and_eq_true]
      exact ⟨plain_convert_noDecimal v h.1, plain_convert_noDecimal_elems rest h.2⟩

end

mutual

/-- A plain value, once decimal-converted, serializes to a JSONB blob and
deserializes back to exactly the converted value. -/
theorem plain_convert_roundtrip : ∀ v : PyVal,
    plainVal v = true → ∃ j, json_dumps (convert_decimals v) = some j ∧
      json_loads j = convert_decimals v
  | .none, _ => ⟨.null, rfl, rfl⟩
  | .bool b, _ => ⟨.bool b, rfl, rfl⟩
  | .int n, _ => ⟨.int n, rfl, rfl⟩
  | .float q, _ => ⟨.num q, rfl, rfl⟩
  | .decimal q, _ => ⟨.num q, rfl, rfl⟩
  | .str s, _ => ⟨.str s, rfl, rfl⟩
  | .dict fs, h => by
      obtain ⟨js, hjs, hload⟩ :=
        plain_convert_roundtrip_fields fs (by simpa [plainVal] using h)
      exact ⟨.obj js, by simp [convert_decimals, json_dumps, hjs],
        by simp [json_loads, hload, convert_decimals]⟩
  | .list xs, h => by
      obtain ⟨js, hjs, hload⟩ :=
        plain_convert_roundtrip_elems xs (by simpa [plainVal] using h)
      exact ⟨.arr js, by simp [convert_decimals, json_dumps, hjs],
        by simp [json_loads, hload, convert_decimals]⟩

theorem plain_convert_roundtrip_fields : ∀ fs : Fields,
    plainFields fs = true →
      ∃ js, json_dumps_fields (convert_decimals_fields fs) = some js ∧
        json_loads_fields js = convert_decimals_fields fs
  | .nil, _ => ⟨[], rfl, rfl⟩
  | .cons k v rest, h => by
      simp only [plainFields, Bool.and_eq_true] at h
      obtain ⟨j, hj, hjl⟩ := plain_convert_roundtrip v h.1
      obtain ⟨tl, htl, htll⟩ := plain_convert_roundtrip_fields rest h.2
      refine ⟨(k, j) :: tl, ?_, ?_⟩
      · simp [convert_decimals_fields, json_dumps_fields, hj, htl, Bind.bind, Option.bind]
      · simp [json_loads_fields, hjl, htll, convert_decimals_fields]

theorem plain_convert_roundtrip_elems : ∀ xs : Elems,
    plainElems xs = true →
      ∃ js, json_dumps_elems (convert_decimals_elems xs) = some js ∧
        json_loads_elems js = convert_decimals_elems xs
  | .nil, _ => ⟨[], rfl, rfl⟩
  | .cons v rest, h => by
      simp only [plainElems, Bool.and_eq_true] at h
      obtain ⟨j, hj, hjl⟩ := plain_convert_roundtrip v h.1
      obtain ⟨tl, htl, htll⟩ := plain_convert_roundtrip_elems rest h.2
      refine ⟨j :: tl, ?_, ?_⟩
      · simp [convert_decimals_elems, json_dumps_elems, hj, htl, Bind.bind, Option.bind]
      · simp [json_loads_elems, hjl, htll, convert_decimals_elems]

end

/-- C4. Every structured field value has its decimals recursively downcast
before serialization (process_val wraps the converted structure), the
converted structure contains no decimal at any depth, and its
serialize-then-deserialize round trip is exactly the converted value. -/
theorem C4_decimal_downcast_roundtrip :
    (∀ v : PyVal, plainVal v = true →
        noDecimal (convert_decimals v) = true ∧
        ∃ j, json_dumps (convert_decimals v) = some j ∧
          json_loads j = convert_decimals v) ∧
    (∀ (card : Fields) (col : String) (fs : Fields), col ≠ "released_at" →
        pyGet card col = .dict fs →
        process_val card col = .ok (.json (convert_decimals (.dict fs)))) ∧
    (∀ (card : Fields) (col : String) (xs : Elems), col ≠ "released_at" →
        pyGet card col = .list xs →
        process_val card col = .ok (.json (convert_decimals (.list xs)))) := by
  refine ⟨fun v h => ⟨plain_convert_noDecimal v h, plain_convert_roundtrip v h⟩, ?_, ?_⟩
  · intro card col fs hcol hget
    simp [process_val, hcol, hget]
  · intro card col xs hcol hget
    simp [process_val, hcol, hget]

/-- C4 witness: a concrete dict nested three deep with decimals at every
level round-trips to its recursive float downcast. -/
theorem C4_decimal_downcast_roundtrip_witness :
    noDecimal (convert_decimals exNested) = true ∧
    ∃ j, json_dumps (convert_decimals exNested) = some j ∧
      json_loads j = convert_decimals exNested :=
  C4_decimal_downcast_roundtrip.1 exNested (by decide)

/-- The transformed batch has one row per input card, in input order. -/
theorem pipeline_rows_ok : ∀ (cards : List Fields) (rows : List (List PyVal)),
    pipeline_rows cards = .ok rows →
    rows.length = cards.length ∧
    ∀ (i : Nat) (card : Fields), cards[i]? = some card →
      ∃ row, card_row card = .ok row ∧ rows[i]? = some row := by
  intro cards
  induction cards with
  | nil =>
      intro rows h
      cases h
      exact ⟨rfl, fun i card hc => by simp at hc⟩
  | cons c tl ih =>
      intro rows h
      unfold pipeline_rows at h
      cases hr : card_row c with
      | error e => rw [hr] at h; exact absurd h (by simp [Bind.bind, Except.bind])
      | ok r =>
          rw [hr] at h
          cases htl : pipeline_rows tl with
          | error e => rw [htl] at h; exact absurd h (by simp [Bind.bind, Except.bind])
          | ok rs =>
              rw [htl] at h
              simp only [Bind.bind, Except.bind, Except.ok.injEq] at h
              subst h
              obtain ⟨hlen, hidx⟩ := ih rs htl
              refine ⟨by simp [hlen], ?_⟩
              intro i card hc
              cases i with
              | zero =>
                  simp only [List.getElem?_cons_zero, Option.some.injEq] at hc
                  subst hc
                  exact ⟨r, hr, by simp⟩
              | succ n =>
                  simp only [List.getElem?_cons_succ] at hc ⊢
                  exact hidx n card hc

/-- C6 counterexample: in the two-faced record exCard the image_uris field
is missing from the input object, yet its slot in the transformed row
(column index 15) is not null — face aggregation populated it. -/
theorem C6_counterexample :
    Fields.lookup exCard "image_uris" = Option.none ∧
    columns[15]? = some "image_uris" ∧
    ∃ row, card_row exCard = .ok row ∧ row[15]? ≠ some PyVal.none := by
  refine ⟨rfl, rfl, _, rfl, ?_⟩
  decide

/-- C6 amended: one row tuple per input object in input order, each row of
the fixed column length; every field missing from the input maps to null
except the image-URI field, which face aggregation may populate for a
multi-faced record. -/
theorem C6_output_shape :
    ∀ (cards : List Fields) (rows : List (List PyVal)),
      pipeline_rows cards = .ok rows →
      rows.length = cards.length ∧
      (∀ (i : Nat) (card : Fields), cards[i]? = some card →
          ∃ row, card_row card = .ok row ∧ rows[i]? = some row) ∧
      (∀ (card : Fields) (row : List PyVal), card_row card = .ok row →
          row.length = columns.length ∧
          ∀ (j : Nat) (col : String), columns[j]? = some col →
            col ≠ "image_uris" → Fields.lookup card col = Option.none →
            row[j]? = some PyVal.none) := by
  intro cards rows h
  obtain ⟨hlen, hidx⟩ := pipeline_rows_ok cards rows h
  refine ⟨hlen, hidx, ?_⟩
  intro card row hrow
  obtain ⟨card2, p, hag, hp, hmap⟩ := card_row_ok card row hrow
  subst hmap
  refine ⟨by simp, ?_⟩
  intro j col hj hcol hmiss
  have hpres := aggregate_faces_preserves card card2 hag col hcol
  have hval : process_val card2 col = .ok PyVal.none := by
    by_cases hrel : col = "released_at"
    · subst hrel
      simp [process_val, pyGet, hpres, hmiss, parse_date, isFalsy]
    · simp [process_val, hrel, pyGet, hpres, hmiss]
  have hcolmem : col ∈ columns := by
    have := List.getElem?_eq_some_iff.mp hj
    obtain ⟨hjl, hje⟩ := this
    exact hje ▸ List.getElem_mem hjl
  have hlook := process_columns_ok_lookup card2 col PyVal.none hval columns p hp hcolmem
  rw [List.getElem?_map, hj]
  simp [pyGet, hlook]

/-- C6 amended witness: the one-card batch around exPlainCard yields one
row of full column length whose mtgo_id slot (a field missing from the
input, column index 4) is null. -/
theorem C6_output_shape_witness :
    ∃ rows, pipeline_rows [exPlainCard] = .ok rows ∧ rows.length = 1 ∧
      ∃ row, card_row exPlainCard = .ok row ∧ row.length = columns.length ∧
        row[4]? = some PyVal.none := by
  refine ⟨_, rfl, (C6_output_shape [exPlainCard] _ rfl).1, _, rfl, ?_, ?_⟩
  · exact ((C6_output_shape [exPlainCard] _ rfl).2.2 exPlainCard _ rfl).1
  · exact ((C6_output_shape [exPlainCard] _ rfl).2.2 exPlainCard _ rfl).2
      4 "mtgo_id" rfl (by decide) rfl

/-- Characterization of upsert_row when no stored row collides: the row is
inserted and counts as one change. -/
theorem upsert_row_eq_insert (t : List Row) (r : Row)
    (hf : t.find? (fun s => decide (rowKey s = rowKey r)) = Option.none) :
    upsert_row t r = (t ++ [r], 1) := by
  unfold upsert_row
  rw [hf]

/-- Characterization of upsert_row on a collision with equal non-key
values: the no-op guard suppresses the update. -/
theorem upsert_row_eq_noop (t : List Row) (r s : Row)
    (hf : t.find? (fun s2 => decide (rowKey s2 = rowKey r)) = some s)
    (hs : nonKey s = nonKey r) :
    upsert_row t r = (t, 0) := by
  unfold upsert_row
  rw [hf]
  simp [hs]

/-- Characterization of upsert_row on a collision with differing non-key
values: the colliding row is replaced by the incoming one. -/
theorem upsert_row_eq_update (t : List Row) (r s : Row)
    (hf : t.find? (fun s2 => decide (rowKey s2 = rowKey r)) = some s)
    (hs : nonKey s ≠ nonKey r) :
    upsert_row t r = (t.map (fun s2 => if rowKey s2 = rowKey r then r else s2), 1) := by
  unfold upsert_row
  rw [hf]
  simp [hs]

/-- After replacing the colliding rows by r, searching for r's key finds r. -/
theorem find?_map_update_self : ∀ (t : List Row) (r : Row),
    (t.find? (fun s => decide (rowKey s = rowKey r))).isSome = true →
    (t.map (fun s2 => if rowKey s2 = rowKey r then r else s2)).find?
      (fun s => decide (rowKey s = rowKey r)) = some r := by
  intro t r
  induction t with
  | nil => intro h; simp [List.find?] at h
  | cons hd tl ih =>
      intro hsome
      by_cases hk : rowKey hd = rowKey r
      · simp only [List.map_cons, if_pos hk]
        rw [List.find?_cons_of_pos _ (by simp)]
      · simp only [List.map_cons, if_neg hk]
        rw [List.find?_cons_of_neg _ (by simp [hk])]
        apply ih
        rw [List.find?_cons_of_neg _ (by simp [hk])] at hsome
        exact hsome

/-- The replacement touches only rows with r's key, so searching for any
other key is unchanged. -/
theorem find?_map_update_other : ∀ (t : List Row) (r : Row) (k : PyVal),
    k ≠ rowKey r →
    (t.map (fun s2 => if rowKey s2 = rowKey r then r else s2)).find?
      (fun s => decide (rowKey s = k)) = t.find? (fun s => decide (rowKey s = k)) := by
  intro t r k hk
  induction t with
  | nil => rfl
  | cons hd tl ih =>
      by_cases hh : rowKey hd = rowKey r
      · simp only [List.map_cons, if_pos hh]
        rw [List.find?_cons_of_neg _ (by simp [Ne.symm hk]),
            List.find?_cons_of_neg _ (by simp [hh, Ne.symm hk])]
        exact ih
      · simp only [List.map_cons, if_neg hh]
        by_cases hp : rowKey hd = k
        · rw [List.find?_cons_of_pos _ (by simp [hp]),
              List.find?_cons_of_pos _ (by simp [hp])]
        · rw [List.find?_cons_of_neg _ (by simp [hp]),
              List.find?_cons_of_neg _ (by simp [hp])]
          exact ih

/-- After upsert_row t r, exactly r's key and non-key values are found
under r's key. -/
theorem upsert_findKey_self (t : List Row) (r : Row) :
    ∃ s, findKey (upsert_row t r).1 (rowKey r) = some s ∧
      rowKey s = rowKey r ∧ nonKey s = nonKey r := by
  cases hf : t.find? (fun s => decide (rowKey s = rowKey r)) with
  | none =>
      refine ⟨r, ?_, rfl, rfl⟩
      rw [upsert_row_eq_insert t r hf]
      unfold findKey
      rw [List.find?_append, hf]
      simp [List.find?]
  | some s =>
      by_cases hs : nonKey s = nonKey r
      · refine ⟨s, ?_, ?_, hs⟩
        · rw [upsert_row_eq_noop t r s hf hs]
          exact hf
        · have := List.find?_some hf
          simpa using this
      · refine ⟨r, ?_, rfl, rfl⟩
        rw [upsert_row_eq_update t r s hf hs]
        exact find?_map_update_self t r (by rw [hf]; rfl)

/-- Upserting a row does not disturb what is found under any other key. -/
theorem upsert_findKey_other (t : List Row) (r : Row) (k : PyVal)
    (hk : k ≠ rowKey r) :
    findKey (upsert_row t r).1 k = findKey t k := by
  cases hf : t.find? (fun s => decide (rowKey s = rowKey r)) with
  | none =>
      rw [upsert_row_eq_insert t r hf]
      unfold findKey
      rw [List.find?_append]
      have : List.find? (fun s => decide (rowKey s = k)) [r] = Option.none := by
        simp [List.find?, Ne.symm hk]
      rw [this]
      simp
  | some s =>
      by_cases hs : nonKey s = nonKey r
      · rw [upsert_row_eq_noop t r s hf hs]
      · rw [upsert_row_eq_update t r s hf hs]
        exact find?_map_update_other t r k hk

/-- A whole batch with keys all different from k does not disturb what is
found under k. -/
theorem apply_batch_findKey_other : ∀ (rs : List Row) (t : List Row) (k : PyVal),
    (∀ r ∈ rs, k ≠ rowKey r) →
    findKey (apply_batch t rs).1 k = findKey t k := by
  intro rs
  induction rs with
  | nil => intro t k _; rfl
  | cons r rest ih =>
      intro t k hk
      show findKey (apply_batch (upsert_row t r).1 rest).1 k = findKey t k
      rw [ih (upsert_row t r).1 k (fun r2 h2 => hk r2 (List.mem_cons_of_mem r h2)),
          upsert_findKey_other t r k (hk r (List.mem_cons_self r rest))]

/-- Re-applying a batch with pairwise distinct keys to the table it
produced changes nothing: every row collides with itself and the no-op
guard fires. -/
theorem apply_batch_idem : ∀ (rs : List Row) (t : List Row),
    (rs.map rowKey).Nodup →
    apply_batch (apply_batch t rs).1 rs = ((apply_batch t rs).1, 0) := by
  intro rs
  induction rs with
  | nil => intro t _; rfl
  | cons r rest ih =>
      intro t hnd
      rw [List.map_cons, List.nodup_cons] at hnd
      obtain ⟨hnotin, hnd2⟩ := hnd
      obtain ⟨s, hfind1, _, hnk⟩ := upsert_findKey_self t r
      have hpres : findKey (apply_batch (upsert_row t r).1 rest).1 (rowKey r)
          = findKey (upsert_row t r).1 (rowKey r) :=
        apply_batch_findKey_other rest (upsert_row t r).1 (rowKey r)
          (fun r2 hr2 he => hnotin (List.mem_map.mpr ⟨r2, hr2, he.symm⟩))
      have hfound : (apply_batch (upsert_row t r).1 rest).1.find?
          (fun s2 => decide (rowKey s2 = rowKey r)) = some s := by
        have := hpres.trans hfind1
        exact this
      have hnoop := upsert_row_eq_noop (apply_batch (upsert_row t r).1 rest).1 r s hfound hnk
      have hIH := ih (upsert_row t r).1 hnd2
      simp [apply_batch, hnoop, hIH]

/-- C1. The conflict-resolution semantics updates a colliding row to the
incoming values exactly when some non-key column differs (otherwise the
statement's guard makes it a no-op), and re-applying the full pipeline's
row batch (with pairwise distinct primary keys) to the table the first
run produced changes zero rows. -/
theorem C1_upsert_noop_guard_idempotence :
    (∀ (t : List Row) (r s : Row),
        findKey t (rowKey r) = some s →
        (nonKey s = nonKey r → upsert_row t r = (t, 0)) ∧
        (nonKey s ≠ nonKey r →
          upsert_row t r =
            (t.map (fun s2 => if rowKey s2 = rowKey r then r else s2), 1))) ∧
    (∀ (t : List Row) (cards : List Fields) (rows : List Row),
        pipeline_rows cards = .ok rows →
        (rows.map rowKey).Nodup →
        apply_batch (apply_batch t rows).1 rows = ((apply_batch t rows).1, 0)) := by
  constructor
  · intro t r s hf
    exact ⟨upsert_row_eq_noop t r s hf, upsert_row_eq_update t r s hf⟩
  · intro t cards rows _ hnd
    exact apply_batch_idem rows t hnd

/-- C1 witness: a concrete two-card pipeline batch applied twice to the
empty table changes zero rows the second time, and a concrete colliding
row with identical non-key values is a no-op. -/
theorem C1_upsert_noop_guard_idempotence_witness :
    (∃ rows, pipeline_rows [exPlainCard, exBadDateCard] = .ok rows ∧
      apply_batch (apply_batch [] rows).1 rows = ((apply_batch [] rows).1, 0)) ∧
    upsert_row [[PyVal.str "o", PyVal.str "k", PyVal.int 3]]
        [PyVal.str "o", PyVal.str "k", PyVal.int 3]
      = ([[PyVal.str "o", PyVal.str "k", PyVal.int 3]], 0) :=
  ⟨⟨_, rfl, C1_upsert_noop_guard_idempotence.2 [] [exPlainCard, exBadDateCard] _ rfl
      (by decide)⟩,
   (C1_upsert_noop_guard_idempotence.1 [[PyVal.str "o", PyVal.str "k", PyVal.int 3]]
      [PyVal.str "o", PyVal.str "k", PyVal.int 3]
      [PyVal.str "o", PyVal.str "k", PyVal.int 3] rfl).1 rfl⟩

/-- Every run either fails with the committed table untouched and no
commit issued, or succeeds having committed the whole applied batch
exactly once. -/
theorem run_main_cases (w : World) (db0 : List Row) :
    (∃ e p, run_main w db0 = ⟨.error e, db0, p, 0⟩) ∨
    (∃ cards rows, w.parsed = .ok cards ∧ pipeline_rows cards = .ok rows ∧
        run_main w db0 = ⟨.ok (), (apply_batch db0 rows).1, (apply_batch db0 rows).1, 1⟩) := by
  unfold run_main
  split
  · split
    · exact Or.inl ⟨_, _, rfl⟩
    · split
      · exact Or.inl ⟨_, _, rfl⟩
      · exact Or.inl ⟨_, _, rfl⟩
  · split
    · exact Or.inl ⟨_, _, rfl⟩
    · rename_i cards hcards
      split
      · exact Or.inl ⟨_, _, rfl⟩
      · rename_i rows hrows
        split
        · rename_i k
          split
          · exact Or.inl ⟨_, _, rfl⟩
          · exact Or.inr ⟨cards, rows, hcards, hrows, rfl⟩
        · exact Or.inr ⟨cards, rows, hcards, hrows, rfl⟩

/-- C8. On any failure (before or during the writer stage) the committed
table is exactly the pre-run table and no commit was issued; on success
the whole transformed batch was applied and committed exactly once. -/
theorem C8_write_atomicity :
    ∀ (w : World) (db0 : List Row),
      (∀ e, (run_main w db0).outcome = .error e →
          (run_main w db0).committed = db0 ∧ (run_main w db0).ncommits = 0) ∧
      (∀ u : Unit, (run_main w db0).outcome = .ok u →
          ∃ cards rows, w.parsed = .ok cards ∧ pipeline_rows cards = .ok rows ∧
            (run_main w db0).committed = (apply_batch db0 rows).1 ∧
            (run_main w db0).ncommits = 1) := by
  intro w db0
  rcases run_main_cases w db0 with ⟨e, p, hrun⟩ | ⟨cards, rows, hc, hr, hrun⟩
  · constructor
    · intro e2 _
      rw [hrun]
      exact ⟨rfl, rfl⟩
    · intro u hu
      rw [hrun] at hu
      cases hu
  · constructor
    · intro e2 he
      rw [hrun] at he
      cases he
    · intro u _
      exact ⟨cards, rows, hc, hr, by rw [hrun], by rw [hrun]⟩

/-- C8 witness: a failing metadata query leaves the table untouched with
zero commits; a clean run over one card commits once. -/
theorem C8_write_atomicity_witness :
    ((run_main wFail []).committed = [] ∧ (run_main wFail []).ncommits = 0) ∧
    ∃ cards rows, wOk.parsed = .ok cards ∧ pipeline_rows cards = .ok rows ∧
      (run_main wOk []).committed = (apply_batch [] rows).1 ∧
      (run_main wOk []).ncommits = 1 :=
  ⟨(C8_write_atomicity wFail []).1 (RunFailure.metaHttp 500) rfl,
   (C8_write_atomicity wOk []).2 () rfl⟩
